import Mathlib

/-
Shallow embedding of `mmocr/datasets/preparers/packers/ser_packer.py`.

The module has two operations on annotation data:
  - `SERPacker.pack_instance`: packs one `(img_path, instances)` sample into a
    per-document record with parallel `texts` / `boxes` / `labels` sequences and
    an optional `words` sequence (present only when every raw instance has a
    `words` entry).
  - `SERPacker.add_meta`: collects all labels across the packed documents,
    deduplicates them (Python `list(set(labels))`), expands them into a BIO tag
    vocabulary and builds the `id2label` / `label2id` mappings of the final
    dataset envelope.

Modelling choices:
  - Python values that may be absent (`dict.get(key, None)`) are `Option`s;
    a key that is absent and a key that is present both map to the same
    `Option` value only for `text` / `box` / `label`, where the code never
    tests key membership.  For `words` the code tests key membership
    (`"words" in ins`), which is `Option.isSome` here.
  - Python truthiness of the extracted values (`assert text or box or label`)
    is explicit: a missing value and an empty string / empty list are falsy.
  - The external collaborators `mmcv.imread` (image decoding) and
    `osp.relpath` are parameters of `pack_instance`; image decoding returns
    `(height, width)` on success and `none` on failure, in which case the
    whole call fails, as in the source.
  - Failure (an `AssertionError`, an `AttributeError` from `None.upper()`, or
    an unreadable image) is `none` of an `Option` result.
  - Python dicts built by comprehensions are association lists built by
    repeated insert-or-overwrite (`dictInsert`), which is exactly the
    later-binding-wins behaviour of a dict comprehension.
  - `list(set(labels))` iterates a set in an unspecified order; `add_meta_ord`
    takes the set-iteration behaviour as a function parameter, and `add_meta`
    instantiates it with `List.dedup` as one fixed deduplication order.
  - Python `str.upper()` is `pyUpper`, character-wise ASCII uppercasing, which
    agrees with Python on the ASCII label names the code handles.
-/

/-- One entry of a `words` list: a sub-region `{box, text}` for a single
character or token. -/
structure WordItem where
  box : List Int
  text : String
  deriving DecidableEq

/-- One raw annotation instance handed to `pack_instance`: the four keys the
code reads, each possibly absent. -/
structure RawInstance where
  text : Option String
  box : Option (List Int)
  label : Option String
  words : Option (List WordItem)
  deriving DecidableEq

/-- Python truthiness of an optional string: `None` and `""` are falsy. -/
def truthyStr : Option String → Bool
  | none => false
  | some s => !s.isEmpty

/-- Python truthiness of an optional list: `None` and `[]` are falsy. -/
def truthyList : Option (List Int) → Bool
  | none => false
  | some l => !l.isEmpty

/-- The condition of the source line `assert text or box or label`. -/
def instance_check (ins : RawInstance) : Bool :=
  truthyStr ins.text || truthyList ins.box || truthyStr ins.label

/-- The `instances` sub-dictionary of a packed document: parallel sequences,
with `words` present only under the all-or-nothing policy. -/
structure PackedInstances where
  texts : List (Option String)
  boxes : List (Option (List Int))
  labels : List (Option String)
  words : Option (List (List WordItem))
  deriving DecidableEq

/-- One packed per-document record produced by `pack_instance`. -/
structure PackedDocument where
  instances : PackedInstances
  img_path : String
  height : Nat
  width : Nat
  deriving DecidableEq

/-- `has_words = all(["words" in ins for ins in instances])` from the source. -/
def has_words_all (instances : List RawInstance) : Bool :=
  instances.all fun ins => ins.words.isSome

/-- The warning branch of `pack_instance`: `warnings.warn` runs exactly when
`has_words` is false. -/
def pack_instance_warns (instances : List RawInstance) : Bool :=
  !has_words_all instances

/-- The `for instance in instances` loop of `pack_instance`: appends
`text` / `box` / `label` (and `words` when `has_words`) of each instance to the
accumulating parallel sequences, failing at the first instance whose three
values are all falsy (the `assert`). -/
def pack_loop (hw : Bool) :
    List RawInstance → List (Option String) → List (Option (List Int)) →
    List (Option String) → List (List WordItem) →
    Option (List (Option String) × List (Option (List Int)) ×
            List (Option String) × List (List WordItem))
  | [], ts, bs, ls, ws => some (ts, bs, ls, ws)
  | ins :: rest, ts, bs, ls, ws =>
    if instance_check ins then
      pack_loop hw rest (ts ++ [ins.text]) (bs ++ [ins.box]) (ls ++ [ins.label])
        (if hw then ws ++ [ins.words.getD []] else ws)
    else
      none

/-- `SERPacker.pack_instance`.  `imread` and `relpath` are the external
collaborators `mmcv.imread` (returning `(height, width)`) and `osp.relpath`;
`data_root` is `self.data_root`. -/
def pack_instance (imread : String → Option (Nat × Nat))
    (relpath : String → String → String) (data_root : String)
    (sample : String × List RawInstance) : Option PackedDocument :=
  match imread sample.1 with
  | none => none
  | some hw =>
    match pack_loop (has_words_all sample.2) sample.2 [] [] [] [] with
    | none => none
    | some r =>
      some { instances :=
               { texts := r.1
                 boxes := r.2.1
                 labels := r.2.2.1
                 words := if has_words_all sample.2 then some r.2.2.2 else none }
             img_path := relpath sample.1 data_root
             height := hw.1
             width := hw.2 }

/-- Python `str.upper()` restricted to ASCII, character-wise.  (The source
uppercases label names such as "question"; on ASCII this is exactly
`Char.toUpper` on every character.) -/
def pyUpper (s : String) : String :=
  ⟨s.data.map Char.toUpper⟩

/-- The loop of `get_bio_label_list`: `"other"` inserts `"O"` at index 0 of the
accumulated list, any other string label appends its `B-` and `I-` tags, and a
`None` label crashes (`None.upper()` raises), which is `none` here. -/
def bio_loop : List (Option String) → List String → Option (List String)
  | [], acc => some acc
  | none :: _, _ => none
  | some l :: rest, acc =>
    if l = "other" then
      bio_loop rest ("O" :: acc)
    else
      bio_loop rest (acc ++ ["B-" ++ pyUpper l, "I-" ++ pyUpper l])

/-- `get_bio_label_list` from `SERPacker.add_meta`. -/
def get_bio_label_list (labels : List (Option String)) : Option (List String) :=
  bio_loop labels []

/-- Insert-or-overwrite on an association list: the semantics of one
`d[k] = v` assignment on a Python dict (existing key keeps its position and
gets the new value; a new key goes to the end). -/
def dictInsert {α β : Type} [DecidableEq α] (d : List (α × β)) (k : α) (v : β) :
    List (α × β) :=
  if d.any fun p => decide (p.1 = k) then
    d.map fun p => if p.1 = k then (k, v) else p
  else
    d ++ [(k, v)]

/-- A Python dict comprehension over a list of key-value pairs: repeated
insert-or-overwrite starting from the empty dict. -/
def dictOfPairs {α β : Type} [DecidableEq α] (ps : List (α × β)) : List (α × β) :=
  ps.foldl (fun d p => dictInsert d p.1 p.2) []

/-- Dict lookup on the association-list model. -/
def dictGet? {α β : Type} [DecidableEq α] (d : List (α × β)) (k : α) : Option β :=
  (d.find? fun p => decide (p.1 = k)).map Prod.snd

/-- Python `enumerate` starting at index `i`. -/
def enumFromIdx {α : Type} (i : Nat) : List α → List (Nat × α)
  | [] => []
  | x :: xs => (i, x) :: enumFromIdx (i + 1) xs

/-- Python `enumerate(l)`. -/
def enumerate {α : Type} (l : List α) : List (Nat × α) :=
  enumFromIdx 0 l

/-- The `metainfo` dictionary of the envelope built by `add_meta`. -/
structure Metainfo where
  labels : List (Option String)
  id2label : List (Nat × String)
  label2id : List (String × Nat)
  deriving DecidableEq

/-- The dataset envelope `{metainfo, data_list}` returned by `add_meta`. -/
structure Envelope where
  metainfo : Metainfo
  data_list : List PackedDocument
  deriving DecidableEq

/-- The label-collection loop of `add_meta`:
`labels = []; for s in sample: labels += s["instances"]["labels"]`. -/
def collect_labels (sample : List PackedDocument) : List (Option String) :=
  sample.foldl (fun acc s => acc ++ s.instances.labels) []

/-- `SERPacker.add_meta`, with the set-iteration behaviour of
`list(set(labels))` abstracted as the `setList` parameter (the source relies
on the incidental iteration order of a Python set). -/
def add_meta_ord (setList : List (Option String) → List (Option String))
    (sample : List PackedDocument) : Option Envelope :=
  let org_label_list := setList (collect_labels sample)
  match get_bio_label_list org_label_list with
  | none => none
  | some bio =>
    some { metainfo :=
             { labels := org_label_list
               id2label := dictOfPairs (enumerate bio)
               label2id := dictOfPairs ((enumerate bio).map fun p => (p.2, p.1)) }
           data_list := sample }

/-- `SERPacker.add_meta` with `List.dedup` as one fixed deduplication order
for `list(set(labels))`. -/
def add_meta (sample : List PackedDocument) : Option Envelope :=
  add_meta_ord (fun l => l.dedup) sample

/-- The `B-` / `I-` tag pair contributed by one non-`"other"` label (empty for
a `None` label, which never reaches this point on a successful run). -/
def bioPair : Option String → List String
  | none => []
  | some s => ["B-" ++ pyUpper s, "I-" ++ pyUpper s]

/-- If every instance passes the assert, the packing loop succeeds and appends
exactly the per-field projections of the instances, in input order. -/
theorem pack_loop_all_pass (hw : Bool) (inss : List RawInstance) :
    ∀ ts bs ls ws, (∀ ins ∈ inss, instance_check ins = true) →
    pack_loop hw inss ts bs ls ws =
      some (ts ++ inss.map RawInstance.text, bs ++ inss.map RawInstance.box,
            ls ++ inss.map RawInstance.label,
            if hw then ws ++ inss.map (fun ins => ins.words.getD []) else ws) := by
  induction inss with
  | nil =>
    intro ts bs ls ws _
    cases hw <;> simp [pack_loop]
  | cons ins rest ih =>
    intro ts bs ls ws h
    have hc : instance_check ins = true := h ins (List.mem_cons_self ins rest)
    have hrest : ∀ i ∈ rest, instance_check i = true :=
      fun i hi => h i (List.mem_cons_of_mem ins hi)
    rw [pack_loop, if_pos hc,
        ih (ts ++ [ins.text]) (bs ++ [ins.box]) (ls ++ [ins.label])
           (if hw then ws ++ [ins.words.getD []] else ws) hrest]
    cases hw <;> simp

/-- If some instance fails the assert, the packing loop fails. -/
theorem pack_loop_fail (hw : Bool) (inss : List RawInstance) :
    ∀ ts bs ls ws, (∃ ins ∈ inss, instance_check ins = false) →
    pack_loop hw inss ts bs ls ws = none := by
  induction inss with
  | nil =>
    intro ts bs ls ws h
    obtain ⟨ins, hmem, _⟩ := h
    cases hmem
  | cons i rest ih =>
    intro ts bs ls ws h
    by_cases hi : instance_check i = true
    · obtain ⟨ins, hmem, hbad⟩ := h
      rcases List.mem_cons.mp hmem with heq | hmem'
      · rw [heq] at hbad
        rw [hbad] at hi
        cases hi
      · rw [pack_loop, if_pos hi]
        exact ih _ _ _ _ ⟨ins, hmem', hbad⟩
    · rw [pack_loop, if_neg hi]

/-- If the packing loop succeeds, every instance passed the assert. -/
theorem pack_loop_some_all (hw : Bool) (inss : List RawInstance)
    (ts : List (Option String)) (bs : List (Option (List Int)))
    (ls : List (Option String)) (ws : List (List WordItem))
    (r : List (Option String) × List (Option (List Int)) ×
         List (Option String) × List (List WordItem))
    (h : pack_loop hw inss ts bs ls ws = some r) :
    ∀ ins ∈ inss, instance_check ins = true := by
  intro ins hmem
  by_contra hbad
  rw [pack_loop_fail hw inss ts bs ls ws
        ⟨ins, hmem, Bool.not_eq_true _ ▸ hbad⟩] at h
  cases h

/-- Full characterization of a successful `pack_instance` call: the image was
readable, every instance passed the assert, and the document is exactly the
field-wise projection of the input instances. -/
theorem pack_instance_some_eq (imread : String → Option (Nat × Nat))
    (relpath : String → String → String) (root p : String)
    (inss : List RawInstance) (doc : PackedDocument)
    (h : pack_instance imread relpath root (p, inss) = some doc) :
    ∃ hh ww, imread p = some (hh, ww) ∧
      (∀ ins ∈ inss, instance_check ins = true) ∧
      doc = { instances :=
                { texts := inss.map RawInstance.text
                  boxes := inss.map RawInstance.box
                  labels := inss.map RawInstance.label
                  words := if has_words_all inss then
                             some (inss.map fun ins => ins.words.getD [])
                           else none }
              img_path := relpath p root
              height := hh
              width := ww } := by
  unfold pack_instance at h
  cases him : imread p with
  | none =>
    rw [him] at h
    cases h
  | some hw =>
    obtain ⟨hh, ww⟩ := hw
    rw [him] at h
    simp only at h
    cases hpl : pack_loop (has_words_all inss) inss [] [] [] [] with
    | none =>
      rw [hpl] at h
      cases h
    | some r =>
      rw [hpl] at h
      have hall := pack_loop_some_all _ _ _ _ _ _ _ hpl
      have hr := pack_loop_all_pass (has_words_all inss) inss [] [] [] [] hall
      rw [hpl] at hr
      injection hr with hr
      injection h with h
      refine ⟨hh, ww, rfl, hall, ?_⟩
      rw [← h, hr]
      cases hhw : has_words_all inss <;> simp [hhw]

/-- Converse: a readable image and all-passing instances make `pack_instance`
succeed with exactly the projected document. -/
theorem pack_instance_eq_some (imread : String → Option (Nat × Nat))
    (relpath : String → String → String) (root p : String)
    (inss : List RawInstance) (hh ww : Nat)
    (him : imread p = some (hh, ww))
    (hall : ∀ ins ∈ inss, instance_check ins = true) :
    pack_instance imread relpath root (p, inss) =
      some { instances :=
               { texts := inss.map RawInstance.text
                 boxes := inss.map RawInstance.box
                 labels := inss.map RawInstance.label
                 words := if has_words_all inss then
                            some (inss.map fun ins => ins.words.getD [])
                          else none }
             img_path := relpath p root
             height := hh
             width := ww } := by
  unfold pack_instance
  rw [him]
  simp only
  rw [pack_loop_all_pass (has_words_all inss) inss [] [] [] [] hall]
  cases hhw : has_words_all inss <;> simp

/-- A `B-` tag is never the tag `"O"`. -/
theorem bTag_ne_O (s : String) : ("B-" ++ s) ≠ "O" := by
  intro h
  have h2 := congrArg String.length h
  rw [String.length_append] at h2
  have h3 : "B-".length = 2 := rfl
  have h4 : "O".length = 1 := rfl
  omega

/-- An `I-` tag is never the tag `"O"`. -/
theorem iTag_ne_O (s : String) : ("I-" ++ s) ≠ "O" := by
  intro h
  have h2 := congrArg String.length h
  rw [String.length_append] at h2
  have h3 : "I-".length = 2 := rfl
  have h4 : "O".length = 1 := rfl
  omega

/-- `"O"` never occurs among the appended `B-` / `I-` tag pairs. -/
theorem O_not_mem_flatMap (l : List (Option String)) :
    "O" ∉ l.flatMap bioPair := by
  intro h
  obtain ⟨x, _, hx⟩ := List.mem_flatMap.mp h
  match x with
  | none => simp [bioPair] at hx
  | some s =>
    simp only [bioPair, List.mem_cons, List.not_mem_nil, or_false] at hx
    rcases hx with h1 | h1
    · exact bTag_ne_O (pyUpper s) h1.symm
    · exact iTag_ne_O (pyUpper s) h1.symm

/-- The BIO loop over labels containing neither `None` nor `"other"` purely
appends the tag pairs in order. -/
theorem bio_loop_no_other (l : List (Option String)) :
    ∀ acc, none ∉ l → (some "other") ∉ l →
    bio_loop l acc = some (acc ++ l.flatMap bioPair) := by
  induction l with
  | nil =>
    intro acc _ _
    simp [bio_loop]
  | cons x rest ih =>
    intro acc h1 h2
    match x with
    | none => exact absurd (List.mem_cons_self _ _) h1
    | some s =>
      have hs : s ≠ "other" := by
        intro he
        apply h2
        rw [← he]
        exact List.mem_cons_self _ _
      simp only [bio_loop, if_neg hs]
      rw [ih (acc ++ ["B-" ++ pyUpper s, "I-" ++ pyUpper s])
           (fun h => h1 (List.mem_cons_of_mem _ h))
           (fun h => h2 (List.mem_cons_of_mem _ h))]
      simp [bioPair, List.append_assoc]

/-- Closed form of the BIO loop when `"other"` occurs at most once and no label
is `None`: one leading `"O"` (when `"other"` is present) followed by the tag
pairs of the remaining labels, in order. -/
theorem bio_loop_closed (l : List (Option String)) :
    ∀ acc, none ∉ l → l.count (some "other") ≤ 1 →
    bio_loop l acc = some (if some "other" ∈ l then
        "O" :: (acc ++ (l.filter fun o => decide (o ≠ some "other")).flatMap bioPair)
      else acc ++ l.flatMap bioPair) := by
  induction l with
  | nil =>
    intro acc _ _
    simp [bio_loop]
  | cons x rest ih =>
    intro acc h1 hcnt
    match x with
    | none => exact absurd (List.mem_cons_self _ _) h1
    | some s =>
      have h1' : none ∉ rest := fun h => h1 (List.mem_cons_of_mem _ h)
      by_cases hs : s = "other"
      · subst hs
        have hno : some "other" ∉ rest := by
          intro hm
          rw [List.count_cons_self] at hcnt
          have := List.count_pos_iff.mpr hm
          omega
        simp only [bio_loop, if_pos rfl]
        rw [bio_loop_no_other rest ("O" :: acc) h1' hno]
        rw [if_pos (List.mem_cons_self _ _)]
        have hfil : rest.filter (fun o => decide (o ≠ some "other")) = rest :=
          List.filter_eq_self.mpr fun a ha => by
            simp only [decide_eq_true_eq]
            intro he
            exact hno (he ▸ ha)
        rw [List.filter_cons_of_neg (by simp), hfil]
        simp
      · have hsne : some s ≠ some "other" := by simp [hs]
        have hcnt' : rest.count (some "other") ≤ 1 := by
          rw [List.count_cons_of_ne (Ne.symm hsne) rest] at hcnt
          exact hcnt
        simp only [bio_loop, if_neg hs]
        rw [ih (acc ++ ["B-" ++ pyUpper s, "I-" ++ pyUpper s]) h1' hcnt']
        by_cases hm : some "other" ∈ rest
        · rw [if_pos hm, if_pos (List.mem_cons_of_mem _ hm)]
          rw [List.filter_cons_of_pos (by simp [hs])]
          simp [bioPair, List.flatMap_cons, List.append_assoc]
        · have hm2 : some "other" ∉ some s :: rest := by
            intro hmm
            rcases List.mem_cons.mp hmm with he | hm'
            · exact hsne he.symm
            · exact hm hm'
          rw [if_neg hm, if_neg hm2]
          simp [bioPair, List.flatMap_cons, List.append_assoc]

/-- A `None` label anywhere makes the BIO loop fail (models the
`AttributeError` from `None.upper()`). -/
theorem bio_loop_none_mem (l : List (Option String)) :
    ∀ acc, none ∈ l → bio_loop l acc = none := by
  induction l with
  | nil =>
    intro acc h
    cases h
  | cons x rest ih =>
    intro acc h
    match x with
    | none => simp [bio_loop]
    | some s =>
      have hmem : none ∈ rest := by
        rcases List.mem_cons.mp h with he | hm
        · simp at he
        · exact hm
      simp only [bio_loop]
      by_cases hs : s = "other"
      · rw [if_pos hs, ih _ hmem]
      · rw [if_neg hs, ih _ hmem]

/-- A successful `get_bio_label_list` run means no label was `None`. -/
theorem get_bio_some_no_none (l : List (Option String)) (bio : List String)
    (h : get_bio_label_list l = some bio) : none ∉ l := by
  intro hm
  rw [get_bio_label_list, bio_loop_none_mem l [] hm] at h
  cases h

/-- Every string label occurring in the list contributes its adjacent
`B-` / `I-` pair to the concatenation of tag pairs. -/
theorem pair_infix_flatMap (L : String) (l : List (Option String)) :
    some L ∈ l →
    List.IsInfix ["B-" ++ pyUpper L, "I-" ++ pyUpper L] (l.flatMap bioPair) := by
  induction l with
  | nil =>
    intro h
    cases h
  | cons x rest ih =>
    intro h
    rcases List.mem_cons.mp h with he | hm
    · exact ⟨[], rest.flatMap bioPair, by rw [← he]; simp [bioPair]⟩
    · obtain ⟨s, t, hst⟩ := ih hm
      exact ⟨bioPair x ++ s, t, by
        rw [List.flatMap_cons, ← hst]
        simp [List.append_assoc]⟩

/-- The tag `"O"` has no occurrence among the appended tag pairs. -/
theorem count_O_flatMap (l : List (Option String)) :
    (l.flatMap bioPair).count "O" = 0 :=
  List.count_eq_zero.mpr (O_not_mem_flatMap l)

/-- Folding insert-or-overwrite over pairs whose keys are pairwise distinct
never overwrites: the resulting dict is the pair list itself. -/
theorem foldl_dictInsert_nodup {α β : Type} [DecidableEq α] (ps : List (α × β)) :
    ∀ acc : List (α × β), ((acc ++ ps).map Prod.fst).Nodup →
    ps.foldl (fun d p => dictInsert d p.1 p.2) acc = acc ++ ps := by
  induction ps with
  | nil =>
    intro acc _
    simp
  | cons p ps ih =>
    intro acc h
    have hnotin : p.1 ∉ acc.map Prod.fst := by
      rw [List.map_append] at h
      have hdisj := (List.nodup_append.mp h).2.2
      intro hmem
      exact hdisj hmem (by simp)
    have hcond : ¬ ((acc.any fun q => decide (q.1 = p.1)) = true) := by
      intro hany
      obtain ⟨q, hq, he⟩ := List.any_eq_true.mp hany
      have he2 := of_decide_eq_true he
      exact hnotin (he2 ▸ List.mem_map_of_mem Prod.fst hq)
    have hins : dictInsert acc p.1 p.2 = acc ++ [p] := by
      unfold dictInsert
      rw [if_neg hcond]
    rw [List.foldl_cons, hins, ih (acc ++ [p]) (by simpa [List.append_assoc] using h)]
    simp

/-- Looking up a key of a pair list with pairwise-distinct keys returns the
value paired with it. -/
theorem dictGet_mem_nodup {α β : Type} [DecidableEq α] (ps : List (α × β)) :
    ∀ (k : α) (v : β), (ps.map Prod.fst).Nodup → (k, v) ∈ ps →
    dictGet? ps k = some v := by
  induction ps with
  | nil =>
    intro k v _ hmem
    cases hmem
  | cons q ps ih =>
    intro k v hnd hmem
    have hnd2 : (q.1 :: ps.map Prod.fst).Nodup := by simpa using hnd
    rcases List.mem_cons.mp hmem with he | hm
    · subst he
      unfold dictGet?
      rw [List.find?_cons_of_pos _ (by simp)]
      rfl
    · have hk : ¬ (q.1 = k) := by
        intro he2
        have h1 : k ∈ ps.map Prod.fst := by
          have := List.mem_map_of_mem Prod.fst hm
          simpa using this
        exact (List.nodup_cons.mp hnd2).1 (he2 ▸ h1)
      unfold dictGet?
      rw [List.find?_cons_of_neg _ (by simpa using hk)]
      exact ih k v (List.nodup_cons.mp hnd2).2 hm

/-- The keys of `enumFromIdx i l` are `i, i+1, ...` in order. -/
theorem enumFromIdx_map_fst {α : Type} (l : List α) :
    ∀ i, (enumFromIdx i l).map Prod.fst = List.range' i l.length := by
  induction l with
  | nil =>
    intro i
    simp [enumFromIdx]
  | cons x xs ih =>
    intro i
    simp [enumFromIdx, List.range'_succ, ih]

/-- The values of `enumFromIdx i l` are the list itself. -/
theorem enumFromIdx_map_snd {α : Type} (l : List α) :
    ∀ i, (enumFromIdx i l).map Prod.snd = l := by
  induction l with
  | nil =>
    intro i
    simp [enumFromIdx]
  | cons x xs ih =>
    intro i
    simp [enumFromIdx, ih]

/-- The pair `(i + j, l[j])` occurs in `enumFromIdx i l`. -/
theorem enumFromIdx_mem {α : Type} (l : List α) :
    ∀ i j (h : j < l.length), (i + j, l.get ⟨j, h⟩) ∈ enumFromIdx i l := by
  induction l with
  | nil =>
    intro i j h
    exact absurd h (Nat.not_lt_zero j)
  | cons x xs ih =>
    intro i j h
    cases j with
    | zero =>
      simp [enumFromIdx]
    | succ j' =>
      apply List.mem_cons_of_mem
      have heq : i + (j' + 1) = (i + 1) + j' := by omega
      rw [heq]
      exact ih (i + 1) j' (Nat.lt_of_succ_lt_succ h)

/-- The keys of `enumerate l` are pairwise distinct. -/
theorem enumerate_keys_nodup {α : Type} (l : List α) :
    ((enumerate l).map Prod.fst).Nodup := by
  rw [enumerate, enumFromIdx_map_fst]
  exact List.nodup_range' 0 l.length

/-- The keys of `enumerate l` are exactly `[0, l.length)`, in order. -/
theorem enumerate_map_fst {α : Type} (l : List α) :
    (enumerate l).map Prod.fst = List.range l.length := by
  rw [enumerate, enumFromIdx_map_fst, List.range_eq_range']

/-- The label collection loop is flat concatenation of the documents' label
sequences, in order. -/
theorem collect_labels_eq (docs : List PackedDocument) :
    collect_labels docs = docs.flatMap fun d => d.instances.labels := by
  have aux : ∀ (ds : List PackedDocument) (acc : List (Option String)),
      ds.foldl (fun a s => a ++ s.instances.labels) acc =
        acc ++ ds.flatMap (fun d => d.instances.labels) := by
    intro ds
    induction ds with
    | nil =>
      intro acc
      simp
    | cons d ds ih =>
      intro acc
      rw [List.foldl_cons, ih (acc ++ d.instances.labels)]
      simp [List.append_assoc]
  rw [collect_labels, aux]
  simp

/-- Characterization of a successful `add_meta` call: the BIO expansion of the
deduplicated collected labels succeeded, and the envelope is built from it
field by field, with `data_list` the input list. -/
theorem add_meta_some_eq (docs : List PackedDocument) (env : Envelope)
    (h : add_meta docs = some env) :
    ∃ bio, get_bio_label_list (collect_labels docs).dedup = some bio ∧
      env = { metainfo :=
                { labels := (collect_labels docs).dedup
                  id2label := dictOfPairs (enumerate bio)
                  label2id := dictOfPairs ((enumerate bio).map fun p => (p.2, p.1)) }
              data_list := docs } := by
  simp only [add_meta, add_meta_ord] at h
  cases hbio : get_bio_label_list (collect_labels docs).dedup with
  | none =>
    rw [hbio] at h
    cases h
  | some bio =>
    rw [hbio] at h
    exact ⟨bio, rfl, (Option.some.inj h).symm⟩

/-- A list without duplicates contains each element at most once. -/
theorem count_le_one_of_nodup {α : Type} [BEq α] [LawfulBEq α] (l : List α)
    (h : l.Nodup) (a : α) : l.count a ≤ 1 := by
  induction l with
  | nil => simp
  | cons x xs ih =>
    have hx : x ∉ xs := (List.nodup_cons.mp h).1
    have hxs := ih (List.nodup_cons.mp h).2
    by_cases he : a = x
    · subst he
      rw [List.count_cons_self]
      have hz : xs.count a = 0 := List.count_eq_zero.mpr hx
      omega
    · rw [List.count_cons_of_ne he]
      exact hxs

/-- C1 (amended): for every document list on which `add_meta` succeeds, as long
as the produced BIO tag list has no duplicate tags (that is, no two distinct
raw labels share an uppercased form), `label2id` is the exact inverse of
`id2label` (`label2id[id2label[i]] = i` for every `i`) and the ids used as
`id2label` keys are exactly the contiguous range `[0, len(bio_label_list))`
with no gaps. -/
theorem serC1_label_maps_inverse (docs : List PackedDocument) (env : Envelope)
    (bio : List String)
    (hmeta : add_meta docs = some env)
    (hbio : get_bio_label_list (collect_labels docs).dedup = some bio)
    (hnd : bio.Nodup) :
    env.metainfo.id2label.map Prod.fst = List.range bio.length ∧
    ∀ i, i < bio.length → ∃ t, dictGet? env.metainfo.id2label i = some t ∧
      dictGet? env.metainfo.label2id t = some i := by
  obtain ⟨bio2, hbio2, henv⟩ := add_meta_some_eq docs env hmeta
  rw [hbio] at hbio2
  injection hbio2 with hbio2
  subst hbio2
  subst henv
  dsimp only
  have hid : dictOfPairs (enumerate bio) = enumerate bio := by
    have := foldl_dictInsert_nodup (enumerate bio) []
      (by simpa using enumerate_keys_nodup bio)
    simpa [dictOfPairs] using this
  have hswapkeys : (((enumerate bio).map fun p => (p.2, p.1)).map Prod.fst).Nodup := by
    rw [List.map_map]
    have hcomp : (Prod.fst ∘ fun p : Nat × String => (p.2, p.1)) = Prod.snd := rfl
    rw [hcomp, enumerate, enumFromIdx_map_snd]
    exact hnd
  have hlab : dictOfPairs ((enumerate bio).map fun p => (p.2, p.1)) =
      (enumerate bio).map fun p => (p.2, p.1) := by
    have := foldl_dictInsert_nodup ((enumerate bio).map fun p => (p.2, p.1)) []
      (by simpa using hswapkeys)
    simpa [dictOfPairs] using this
  constructor
  · rw [hid, enumerate_map_fst]
  · intro i hi
    have hmem : (i, bio.get ⟨i, hi⟩) ∈ enumerate bio := by
      simpa using enumFromIdx_mem bio 0 i hi
    refine ⟨bio.get ⟨i, hi⟩, ?_, ?_⟩
    · rw [hid]
      exact dictGet_mem_nodup _ i _ (enumerate_keys_nodup bio) hmem
    · rw [hlab]
      exact dictGet_mem_nodup _ _ i hswapkeys
        (List.mem_map_of_mem (fun p => (p.2, p.1)) hmem)

/-- C4: for every raw label list, after deduplication, a successful BIO
expansion satisfies: if the deduplicated labels contain "other" then the tag
"O" occurs exactly once and stands at the front of `bio_label_list` (so in
particular before the `B-` / `I-` tags of every label processed after it), and
every other label `L` contributes `B-<L uppercased>` immediately followed by
`I-<L uppercased>`, in that order. -/
theorem serC4_bio_expansion (labels : List (Option String)) (bio : List String)
    (hbio : get_bio_label_list labels.dedup = some bio) :
    (some "other" ∈ labels.dedup → bio.count "O" = 1 ∧ bio.head? = some "O") ∧
    (∀ L, some L ∈ labels.dedup → L ≠ "other" →
      List.IsInfix ["B-" ++ pyUpper L, "I-" ++ pyUpper L] bio) := by
  have hnone := get_bio_some_no_none _ _ hbio
  have hcnt : labels.dedup.count (some "other") ≤ 1 :=
    count_le_one_of_nodup _ (List.nodup_dedup labels) _
  rw [get_bio_label_list, bio_loop_closed labels.dedup [] hnone hcnt] at hbio
  injection hbio with hbio
  by_cases hm : some "other" ∈ labels.dedup
  · rw [if_pos hm] at hbio
    constructor
    · intro _
      constructor
      · rw [← hbio, List.count_cons_self]
        simp [count_O_flatMap]
      · rw [← hbio]
        rfl
    · intro L hL hLne
      have hLf : some L ∈ labels.dedup.filter fun o => decide (o ≠ some "other") := by
        rw [List.mem_filter]
        exact ⟨hL, by simp [hLne]⟩
      obtain ⟨s, t, hst⟩ := pair_infix_flatMap L _ hLf
      refine ⟨"O" :: s, t, ?_⟩
      rw [← hbio]
      simp only [List.nil_append, List.cons_append]
      rw [hst]
  · rw [if_neg hm] at hbio
    constructor
    · intro hmm
      exact absurd hmm hm
    · intro L hL hLne
      have := pair_infix_flatMap L labels.dedup hL
      rw [← hbio]
      simpa using this

/-- C1 counterexample: with one document whose raw labels are "a" and "A"
(distinct labels with the same uppercase form), `add_meta` succeeds but
`label2id[id2label[0]]` is `2`, not `0`, so `label2id` is not the inverse of
`id2label` on this input. -/
theorem serC1_counterexample :
    ((add_meta [{ instances := { texts := [some "x", some "y"]
                                 boxes := [none, none]
                                 labels := [some "a", some "A"]
                                 words := none }
                  img_path := "p", height := 1, width := 1 }]).bind fun env =>
      (dictGet? env.metainfo.id2label 0).bind fun t =>
        dictGet? env.metainfo.label2id t) = some 2 ∧ (2 : Nat) ≠ 0 := by
  constructor
  · decide
  · decide

/-- C2: when `pack_instance` succeeds, the `words` key is present in the
document iff every input instance has a `words` entry, and when present it
holds each instance's words list at that instance's input position. -/
theorem serC2_words_all_or_nothing (imread : String → Option (Nat × Nat))
    (relpath : String → String → String) (root p : String)
    (inss : List RawInstance) (doc : PackedDocument)
    (h : pack_instance imread relpath root (p, inss) = some doc) :
    ((doc.instances.words.isSome = true) ↔ ∀ ins ∈ inss, ins.words.isSome = true) ∧
    (∀ ws, doc.instances.words = some ws →
      ∀ i ins, inss.get? i = some ins → ws.get? i = ins.words) := by
  obtain ⟨hh, ww, him, hall, hdoc⟩ := pack_instance_some_eq _ _ _ _ _ _ h
  subst hdoc
  dsimp only
  constructor
  · cases hhw : has_words_all inss with
    | true =>
      simp only [hhw, if_true, Option.isSome_some, true_iff]
      exact List.all_eq_true.mp hhw
    | false =>
      simp only [hhw, Bool.false_eq_true, if_false, Option.isSome_none, false_iff]
      intro hforall
      have htrue : has_words_all inss = true := List.all_eq_true.mpr hforall
      rw [htrue] at hhw
      cases hhw
  · intro ws hws i ins hget
    cases hhw : has_words_all inss with
    | false =>
      rw [hhw] at hws
      simp at hws
    | true =>
      rw [hhw] at hws
      simp only [if_true] at hws
      injection hws with hws
      have hmem : ins ∈ inss := List.get?_mem hget
      have hsome : ins.words.isSome = true := List.all_eq_true.mp hhw ins hmem
      obtain ⟨w, hw2⟩ := Option.isSome_iff_exists.mp hsome
      rw [← hws, List.get?_eq_getElem?, List.getElem?_map, ← List.get?_eq_getElem?,
          hget]
      simp [hw2]

/-- C3: when `pack_instance` succeeds, the parallel sequences `texts`, `boxes`
and `labels` all have length equal to the number of input instances, `words`
(when present) has that same length, and position `i` of every sequence comes
from input instance `i`. -/
theorem serC3_parallel_sequences (imread : String → Option (Nat × Nat))
    (relpath : String → String → String) (root p : String)
    (inss : List RawInstance) (doc : PackedDocument)
    (h : pack_instance imread relpath root (p, inss) = some doc) :
    doc.instances.texts.length = inss.length ∧
    doc.instances.boxes.length = inss.length ∧
    doc.instances.labels.length = inss.length ∧
    (∀ ws, doc.instances.words = some ws → ws.length = inss.length ∧
      ∀ i ins, inss.get? i = some ins → ws.get? i = ins.words) ∧
    (∀ i ins, inss.get? i = some ins →
      doc.instances.texts.get? i = some ins.text ∧
      doc.instances.boxes.get? i = some ins.box ∧
      doc.instances.labels.get? i = some ins.label) := by
  obtain ⟨hh, ww, him, hall, hdoc⟩ := pack_instance_some_eq _ _ _ _ _ _ h
  subst hdoc
  dsimp only
  refine ⟨List.length_map _ _, List.length_map _ _, List.length_map _ _, ?_, ?_⟩
  · intro ws hws
    cases hhw : has_words_all inss with
    | false =>
      rw [hhw] at hws
      simp at hws
    | true =>
      rw [hhw] at hws
      simp only [if_true] at hws
      injection hws with hws
      refine ⟨by rw [← hws]; exact List.length_map _ _, ?_⟩
      intro i ins hget
      have hmem : ins ∈ inss := List.get?_mem hget
      have hsome : ins.words.isSome = true := List.all_eq_true.mp hhw ins hmem
      obtain ⟨w, hw2⟩ := Option.isSome_iff_exists.mp hsome
      rw [← hws, List.get?_eq_getElem?, List.getElem?_map, ← List.get?_eq_getElem?,
          hget]
      simp [hw2]
  · intro i ins hget
    refine ⟨?_, ?_, ?_⟩ <;>
      rw [List.get?_eq_getElem?, List.getElem?_map, ← List.get?_eq_getElem?, hget] <;>
      rfl

/-- C5 counterexample: a single instance with text but no `words` entry makes
the source emit the warning even though no instance at all has a `words`
entry, contradicting the claim that the warning requires at least one
instance with `words`. -/
theorem serC5_counterexample :
    pack_instance_warns [{ text := some "t", box := none, label := none,
                           words := none }] = true ∧
    ¬ ∃ ins ∈ ([{ text := some "t", box := none, label := none,
                  words := none }] : List RawInstance), ins.words.isSome = true := by
  constructor
  · decide
  · decide

/-- C5 (amended): the non-fatal `words` warning is emitted iff not every
instance contains a `words` entry — including the case in which no instance
has one (uniform absence also warns). -/
theorem serC5_warning_condition (inss : List RawInstance) :
    pack_instance_warns inss = true ↔ ∃ ins ∈ inss, ins.words = none := by
  rw [pack_instance_warns, has_words_all, Bool.not_eq_true', List.all_eq_false]
  constructor
  · intro ⟨ins, hmem, hne⟩
    exact ⟨ins, hmem, Option.not_isSome_iff_eq_none.mp hne⟩
  · intro ⟨ins, hmem, hnone⟩
    refine ⟨ins, hmem, ?_⟩
    rw [hnone]
    simp

/-- C6: an instance whose `text`, `box` and `label` are all absent or empty
(falsy) makes `pack_instance` fail with no output; when every instance has at
least one of the three present and non-empty and the image is readable,
`pack_instance` succeeds, and each instance is appended to the parallel
output sequences with absent fields recorded as null. -/
theorem serC6_assert_guard (imread : String → Option (Nat × Nat))
    (relpath : String → String → String) (root p : String)
    (inss : List RawInstance) (hh ww : Nat) :
    ((∃ ins ∈ inss, truthyStr ins.text = false ∧ truthyList ins.box = false ∧
        truthyStr ins.label = false) →
      pack_instance imread relpath root (p, inss) = none) ∧
    ((∀ ins ∈ inss, truthyStr ins.text = true ∨ truthyList ins.box = true ∨
        truthyStr ins.label = true) → imread p = some (hh, ww) →
      pack_instance imread relpath root (p, inss) ≠ none) ∧
    (∀ doc, pack_instance imread relpath root (p, inss) = some doc →
      doc.instances.texts = inss.map RawInstance.text ∧
      doc.instances.boxes = inss.map RawInstance.box ∧
      doc.instances.labels = inss.map RawInstance.label) := by
  refine ⟨?_, ?_, ?_⟩
  · intro ⟨ins, hmem, ht, hb, hl⟩
    unfold pack_instance
    cases him : imread p with
    | none => rfl
    | some hw =>
      simp only
      rw [pack_loop_fail _ _ _ _ _ _
            ⟨ins, hmem, by simp [instance_check, ht, hb, hl]⟩]
  · intro hall him
    have hck : ∀ ins ∈ inss, instance_check ins = true := by
      intro ins hins
      rcases hall ins hins with ht | hb | hl
      · simp [instance_check, ht]
      · simp [instance_check, hb]
      · simp [instance_check, hl]
    rw [pack_instance_eq_some imread relpath root p inss hh ww him hck]
    simp
  · intro doc hdoc
    obtain ⟨h1, w1, _, _, hd⟩ := pack_instance_some_eq _ _ _ _ _ _ hdoc
    subst hd
    exact ⟨rfl, rfl, rfl⟩

/-- C7: the `data_list` field of the envelope returned by `add_meta` is
exactly the input document list, unchanged in content and order (the model is
pure, so no document is modified). -/
theorem serC7_data_list_unchanged (docs : List PackedDocument) (env : Envelope)
    (h : add_meta docs = some env) : env.data_list = docs := by
  obtain ⟨bio, _, henv⟩ := add_meta_some_eq docs env h
  rw [henv]

/-- C8: `add_meta` is deterministic — two runs on the same document list with
the same set-iteration (deduplication) behaviour on the collected labels
produce identical envelopes, hence identical `id2label` and `label2id`. -/
theorem serC8_deterministic
    (ord1 ord2 : List (Option String) → List (Option String))
    (docs1 docs2 : List PackedDocument) (hd : docs1 = docs2)
    (ho : ord1 (collect_labels docs1) = ord2 (collect_labels docs2)) :
    add_meta_ord ord1 docs1 = add_meta_ord ord2 docs2 := by
  subst hd
  unfold add_meta_ord
  rw [ho]

/-- C9: `pack_instance` accepts an instance with an absent `label` as long as
its `text` or `box` is truthy, recording null in `labels`; but `add_meta`
fails (the BIO expansion crashes on `None.upper()`) for any document list in
which some document's `labels` contains null. -/
theorem serC9_null_label_crash (imread : String → Option (Nat × Nat))
    (relpath : String → String → String) (root p : String) (hh ww : Nat)
    (ins : RawInstance) (him : imread p = some (hh, ww))
    (hlab : ins.label = none)
    (htb : (truthyStr ins.text || truthyList ins.box) = true) :
    (pack_instance imread relpath root (p, [ins]) ≠ none) ∧
    (∀ doc, pack_instance imread relpath root (p, [ins]) = some doc →
      doc.instances.labels = [none]) ∧
    (∀ docs : List PackedDocument, (∃ d ∈ docs, none ∈ d.instances.labels) →
      add_meta docs = none) := by
  have hck : ∀ i ∈ [ins], instance_check i = true := by
    intro i hi
    rw [List.mem_singleton] at hi
    subst hi
    unfold instance_check
    rw [htb, Bool.true_or]
  refine ⟨?_, ?_, ?_⟩
  · rw [pack_instance_eq_some imread relpath root p [ins] hh ww him hck]
    simp
  · intro doc hdoc
    obtain ⟨h1, w1, _, _, hd⟩ := pack_instance_some_eq _ _ _ _ _ _ hdoc
    subst hd
    simp [hlab]
  · intro docs ⟨d, hd, hnone⟩
    have hcol : none ∈ collect_labels docs := by
      rw [collect_labels_eq]
      exact List.mem_flatMap.mpr ⟨d, hd, hnone⟩
    have hdedup : none ∈ (collect_labels docs).dedup := List.mem_dedup.mpr hcol
    have hgb : get_bio_label_list (collect_labels docs).dedup = none := by
      rw [get_bio_label_list]
      exact bio_loop_none_mem _ [] hdedup
    simp only [add_meta, add_meta_ord]
    rw [hgb]

/-- C10: on an empty instance list with a readable image, `pack_instance`
succeeds with empty `texts`, `boxes` and `labels`, the `words` key present
with an empty list (the all-instances-have-words condition is vacuously
true), and no warning is emitted. -/
theorem serC10_empty_instance_list (imread : String → Option (Nat × Nat))
    (relpath : String → String → String) (root p : String) (hh ww : Nat)
    (him : imread p = some (hh, ww)) :
    pack_instance imread relpath root (p, []) =
      some { instances := { texts := [], boxes := [], labels := [],
                            words := some [] }
             img_path := relpath p root, height := hh, width := ww } ∧
    pack_instance_warns [] = false := by
  constructor
  · rw [pack_instance_eq_some imread relpath root p [] hh ww him
          (by intro i hi; cases hi)]
    rfl
  · rfl

/-- Witness for C1 at a concrete document list with labels "other" and
"question": the `id2label` keys are the contiguous range of the BIO list. -/
theorem serC1_witness :
    ({ metainfo := { labels := [some "other", some "question"]
                     id2label := [(0, "O"), (1, "B-QUESTION"), (2, "I-QUESTION")]
                     label2id := [("O", 0), ("B-QUESTION", 1), ("I-QUESTION", 2)] }
       data_list := [{ instances := { texts := [some "t", some "u"]
                                      boxes := [none, none]
                                      labels := [some "other", some "question"]
                                      words := none }
                       img_path := "p", height := 1, width := 1 }] } :
      Envelope).metainfo.id2label.map Prod.fst =
      List.range (["O", "B-QUESTION", "I-QUESTION"] : List String).length :=
  (serC1_label_maps_inverse
    [{ instances := { texts := [some "t", some "u"]
                      boxes := [none, none]
                      labels := [some "other", some "question"]
                      words := none }
       img_path := "p", height := 1, width := 1 }]
    { metainfo := { labels := [some "other", some "question"]
                    id2label := [(0, "O"), (1, "B-QUESTION"), (2, "I-QUESTION")]
                    label2id := [("O", 0), ("B-QUESTION", 1), ("I-QUESTION", 2)] }
      data_list := [{ instances := { texts := [some "t", some "u"]
                                     boxes := [none, none]
                                     labels := [some "other", some "question"]
                                     words := none }
                      img_path := "p", height := 1, width := 1 }] }
    ["O", "B-QUESTION", "I-QUESTION"] (by decide) (by decide) (by decide)).1

/-- Witness for C2 at a concrete one-instance sample with a `words` entry. -/
theorem serC2_witness :
    (({ instances := { texts := [some "a"]
                       boxes := [some [1]]
                       labels := [some "question"]
                       words := some [[{ box := [1], text := "a" }]] }
        img_path := "img", height := 2, width := 3 } :
       PackedDocument).instances.words.isSome = true ↔
      ∀ ins ∈ ([{ text := some "a", box := some [1], label := some "question",
                  words := some [{ box := [1], text := "a" }] }] :
          List RawInstance), ins.words.isSome = true) :=
  (serC2_words_all_or_nothing (fun _ => some (2, 3)) (fun q _ => q) "r" "img"
    [{ text := some "a", box := some [1], label := some "question",
       words := some [{ box := [1], text := "a" }] }]
    { instances := { texts := [some "a"]
                     boxes := [some [1]]
                     labels := [some "question"]
                     words := some [[{ box := [1], text := "a" }]] }
      img_path := "img", height := 2, width := 3 } (by decide)).1

/-- Witness for C3 at a concrete two-instance sample whose instances both
carry `words`: the length fact and the position-1 `words` correspondence. -/
theorem serC3_witness :
    ({ instances := { texts := [some "a", none]
                      boxes := [none, some [1, 2]]
                      labels := [none, none]
                      words := some [[{ box := [1], text := "a" }],
                                     [{ box := [2], text := "b" }]] }
       img_path := "i", height := 5, width := 6 } :
      PackedDocument).instances.texts.length =
      ([{ text := some "a", box := none, label := none,
          words := some [{ box := [1], text := "a" }] },
        { text := none, box := some [1, 2], label := none,
          words := some [{ box := [2], text := "b" }] }] :
        List RawInstance).length ∧
    ([[{ box := [1], text := "a" }], [{ box := [2], text := "b" }]] :
        List (List WordItem)).get? 1 = some [{ box := [2], text := "b" }] :=
  ⟨(serC3_parallel_sequences (fun _ => some (5, 6)) (fun q _ => q) "r" "i"
      [{ text := some "a", box := none, label := none,
         words := some [{ box := [1], text := "a" }] },
       { text := none, box := some [1, 2], label := none,
         words := some [{ box := [2], text := "b" }] }]
      { instances := { texts := [some "a", none]
                       boxes := [none, some [1, 2]]
                       labels := [none, none]
                       words := some [[{ box := [1], text := "a" }],
                                      [{ box := [2], text := "b" }]] }
        img_path := "i", height := 5, width := 6 } (by decide)).1,
   ((serC3_parallel_sequences (fun _ => some (5, 6)) (fun q _ => q) "r" "i"
      [{ text := some "a", box := none, label := none,
         words := some [{ box := [1], text := "a" }] },
       { text := none, box := some [1, 2], label := none,
         words := some [{ box := [2], text := "b" }] }]
      { instances := { texts := [some "a", none]
                       boxes := [none, some [1, 2]]
                       labels := [none, none]
                       words := some [[{ box := [1], text := "a" }],
                                      [{ box := [2], text := "b" }]] }
        img_path := "i", height := 5, width := 6 } (by decide)).2.2.2.1
     [[{ box := [1], text := "a" }], [{ box := [2], text := "b" }]] rfl).2 1
     { text := none, box := some [1, 2], label := none,
       words := some [{ box := [2], text := "b" }] } rfl⟩

/-- Witness for C4 at the raw label list ["other", "question"]. -/
theorem serC4_witness :
    ((["O", "B-QUESTION", "I-QUESTION"] : List String).count "O" = 1 ∧
      (["O", "B-QUESTION", "I-QUESTION"] : List String).head? = some "O") ∧
    List.IsInfix ["B-" ++ pyUpper "question", "I-" ++ pyUpper "question"]
      ["O", "B-QUESTION", "I-QUESTION"] :=
  ⟨(serC4_bio_expansion [some "other", some "question"]
      ["O", "B-QUESTION", "I-QUESTION"] (by decide)).1 (by decide),
   (serC4_bio_expansion [some "other", some "question"]
      ["O", "B-QUESTION", "I-QUESTION"] (by decide)).2 "question"
     (by decide) (by decide)⟩

/-- Witness for C6 at a concrete sample whose only instance has a non-empty
text: packing does not fail. -/
theorem serC6_witness :
    pack_instance (fun _ => some (7, 8)) (fun q _ => q) "r"
      ("p", [{ text := some "a", box := none, label := none, words := none }]) ≠
      none :=
  (serC6_assert_guard (fun _ => some (7, 8)) (fun q _ => q) "r" "p"
    [{ text := some "a", box := none, label := none, words := none }] 7 8).2.1
    (by decide) rfl

/-- Witness for C7 at a concrete one-document list. -/
theorem serC7_witness :
    ({ metainfo := { labels := [some "other"]
                     id2label := [(0, "O")]
                     label2id := [("O", 0)] }
       data_list := [{ instances := { texts := [some "t"]
                                      boxes := [none]
                                      labels := [some "other"]
                                      words := none }
                       img_path := "p", height := 1, width := 1 }] } :
      Envelope).data_list =
      [{ instances := { texts := [some "t"]
                        boxes := [none]
                        labels := [some "other"]
                        words := none }
         img_path := "p", height := 1, width := 1 }] :=
  serC7_data_list_unchanged
    [{ instances := { texts := [some "t"]
                      boxes := [none]
                      labels := [some "other"]
                      words := none }
       img_path := "p", height := 1, width := 1 }]
    { metainfo := { labels := [some "other"]
                    id2label := [(0, "O")]
                    label2id := [("O", 0)] }
      data_list := [{ instances := { texts := [some "t"]
                                     boxes := [none]
                                     labels := [some "other"]
                                     words := none }
                      img_path := "p", height := 1, width := 1 }] } (by decide)

/-- Witness for C8: two runs with the same deduplication order on the same
one-document list produce the same envelope. -/
theorem serC8_witness :
    add_meta_ord (fun l => l.dedup)
      [{ instances := { texts := [some "t"]
                        boxes := [none]
                        labels := [some "x"]
                        words := none }
         img_path := "p", height := 1, width := 1 }] =
    add_meta_ord (fun l => l.dedup)
      [{ instances := { texts := [some "t"]
                        boxes := [none]
                        labels := [some "x"]
                        words := none }
         img_path := "p", height := 1, width := 1 }] :=
  serC8_deterministic (fun l => l.dedup) (fun l => l.dedup)
    [{ instances := { texts := [some "t"]
                      boxes := [none]
                      labels := [some "x"]
                      words := none }
       img_path := "p", height := 1, width := 1 }]
    [{ instances := { texts := [some "t"]
                      boxes := [none]
                      labels := [some "x"]
                      words := none }
       img_path := "p", height := 1, width := 1 }] rfl rfl

/-- Witness for C9: a label-less instance with text packs fine, and a
document list containing a null label makes `add_meta` fail. -/
theorem serC9_witness :
    (pack_instance (fun _ => some (1, 2)) (fun q _ => q) "r"
      ("p", [{ text := some "a", box := none, label := none, words := none }]) ≠
      none) ∧
    add_meta [{ instances := { texts := [some "a"]
                               boxes := [none]
                               labels := [none]
                               words := none }
                img_path := "p", height := 1, width := 2 }] = none := by
  have h := serC9_null_label_crash (fun _ => some (1, 2)) (fun q _ => q) "r" "p"
    1 2 { text := some "a", box := none, label := none, words := none }
    rfl rfl (by decide)
  exact ⟨h.1, h.2.2
    [{ instances := { texts := [some "a"]
                      boxes := [none]
                      labels := [none]
                      words := none }
       img_path := "p", height := 1, width := 2 }] (by decide)⟩

/-- Witness for C10 at a concrete readable image and empty instance list. -/
theorem serC10_witness :
    pack_instance (fun _ => some (3, 4)) (fun q _ => q) "r" ("img", []) =
      some { instances := { texts := [], boxes := [], labels := [],
                            words := some [] }
             img_path := "img", height := 3, width := 4 } ∧
    pack_instance_warns [] = false :=
  serC10_empty_instance_list (fun _ => some (3, 4)) (fun q _ => q) "r" "img" 3 4
    rfl
